import Mathlib

/-!
# Verification of the DPT-S1 viewer's discovery and frame-acquisition core

Shallow embedding of the Go sources of `yangl1996/dpts1viewer`:

* `device.Refresh` (src/main.go, second variant, lines 216-268): dials the
  device, scans the byte stream for the delimiter `"</command>\n"` while an
  independent cursor scans for the marker `"portrait"`, decodes the JPEG
  that follows the delimiter, publishes it, and resizes the window on an
  orientation change (via `CompareAndSwap` on the `landscape` flag).
* `device.Draw` (src/main.go lines 270-280): draws the published frame, or
  nothing when none has been published yet.
* `getDPTS1Addr` (src/unnamed/part_000 lines 12-57): discovery strategy A,
  a UDP broadcast probe on the unique local interface in `203.0.113.0/24`.
* `getDPTS1AddrPolling` (src/unnamed/part_000 lines 62-91, identical to
  `getDPTS1Addr` in src/main.go lines 336-367): discovery strategy B, 256
  concurrent TCP connection attempts racing over an unbuffered channel.

Bytes are modelled as `Nat` (a TCP stream is a `List Nat`), a connection
as `Option (List Nat)` (`none` = dial failure), and the JPEG decoder — a
standard-library component outside this repository — as an arbitrary
function `List Nat → Option Img`.
-/

namespace DPTS1

/-- The bytes of an ASCII string. -/
def strBytes (s : String) : List Nat := s.toList.map Char.toNat

/-- `var ENDTAG = []byte("</command>\n")` (src/main.go line 198). -/
def ENDTAG : List Nat := strBytes "</command>\n"

/-- `var PORTRAIT = []byte("portrait")` (src/main.go line 199). -/
def PORTRAIT : List Nat := strBytes "portrait"

/-- One step of the delimiter cursor `demidx` (src/main.go lines 235-239):
`if b == ENDTAG[demidx] { demidx += 1 } else { demidx = 0 }`. -/
def demStep (d b : Nat) : Nat := if ENDTAG[d]? = some b then d + 1 else 0

/-- One step of the orientation-marker cursor `poridx` (src/main.go lines
240-246): the cursor is only advanced while `poridx < len(PORTRAIT)`;
once full it stays full. -/
def porStep (p b : Nat) : Nat :=
  if p < PORTRAIT.length then (if PORTRAIT[p]? = some b then p + 1 else 0) else p

/-- The delimiter cursor after feeding a list of bytes. -/
def demRun (d : Nat) (l : List Nat) : Nat := l.foldl demStep d

/-- The orientation-marker cursor after feeding a list of bytes. -/
def porRun (p : Nat) (l : List Nat) : Nat := l.foldl porStep p

/-- The scan loop of `device.Refresh` (src/main.go lines 230-247):
`for demidx < len(ENDTAG)` read one byte (`none` on end of stream — the
Go code returns the read error) and step both cursors.  On completion it
returns the final `poridx` together with the unconsumed remainder of the
stream, which the Go code hands to `jpeg.Decode`. -/
def scanLoop : List Nat → Nat → Nat → Option (Nat × List Nat)
  | [], d, p => if d < ENDTAG.length then none else some (p, [])
  | b :: rest, d, p =>
      if d < ENDTAG.length then scanLoop rest (demStep d b) (porStep p b)
      else some (p, b :: rest)

/-- The error outcomes of one `device.Refresh` call (src/main.go lines
217-219, 231-234, 248-251): dial failure, read failure/EOF before the
delimiter is complete, JPEG decode failure. -/
inductive RefreshError
  | connectError
  | framingError
  | decodeError
deriving DecidableEq, Repr

/-- The published state of the `device` struct (src/main.go lines 189-196):
the atomically published frame slot `display` (initially nil) and the
`landscape` flag (initially false, i.e. portrait). -/
structure DeviceState (Img : Type) where
  display : Option Img
  landscape : Bool
deriving DecidableEq, Repr

/-- The device as constructed in `main` (src/main.go lines 313-317):
empty display pointer, `landscape` false. -/
def initialDevice (Img : Type) : DeviceState Img := ⟨none, false⟩

/-- The orientation publication block of `device.Refresh` (src/main.go
lines 253-264).  `newLandscape` is the Go condition
`poridx != len(PORTRAIT)`.  `landscape.CompareAndSwap(old, new)` succeeds
exactly when the stored flag equals `old`, in which case it stores `new`
and the window is resized.  Returns the stored flag after the block and
the `SetWindowSize` calls it performed. -/
def publishOrientation (landscape newLandscape : Bool) : Bool × List (Nat × Nat) :=
  if newLandscape then
    (if landscape = false then (true, [(800, 600)]) else (landscape, []))
  else
    (if landscape = true then (false, [(600, 800)]) else (landscape, []))

/-- One call of `device.Refresh` (src/main.go lines 216-268).  `conn` is
the dialled connection's byte stream (`none` = `net.Dial` failed);
`decode` stands for `jpeg.Decode` applied to the unconsumed rest of the
buffered stream.  Returns the Go error result, the device state after the
call, and the `SetWindowSize` calls performed. -/
def Refresh {Img : Type} (decode : List Nat → Option Img) (conn : Option (List Nat))
    (st : DeviceState Img) :
    Except RefreshError Unit × DeviceState Img × List (Nat × Nat) :=
  match conn with
  | none => (.error .connectError, st, [])
  | some stream =>
    match scanLoop stream 0 0 with
    | none => (.error .framingError, st, [])
    | some (poridx, rest) =>
      match decode rest with
      | none => (.error .decodeError, st, [])
      | some img =>
        let pub := publishOrientation st.landscape (poridx != PORTRAIT.length)
        (.ok (), ⟨some img, pub.1⟩, pub.2)

/-- The observable effect of one `device.Draw` call (src/main.go lines
270-280): load the published frame; if nil, draw nothing; otherwise draw
it rotated when the `landscape` flag is set. -/
inductive DrawEvent (Img : Type)
  | drawImage (img : Img)
  | drawImageRotated (img : Img)
deriving DecidableEq, Repr

/-- `device.Draw` (src/main.go lines 270-280). -/
def Draw {Img : Type} (st : DeviceState Img) : List (DrawEvent Img) :=
  match st.display with
  | none => []
  | some img => if st.landscape then [.drawImageRotated img] else [.drawImage img]

/-- The refresh driver loop (src/main.go lines 325-329) restricted to its
per-cycle resize decisions: fold `publishOrientation` — the resize block
executed by each successful `Refresh` — over the per-cycle fetched
landscape flags, recording whether each cycle resized the window. -/
def driverResizes (landscape : Bool) : List Bool → List Bool
  | [] => []
  | o :: os =>
      (!(publishOrientation landscape o).2.isEmpty) ::
        driverResizes (publishOrientation landscape o).1 os

/-- `occursAt pat l i = true` iff the full pattern `pat` occurs in `l`
starting at index `i`. -/
def occursAt (pat l : List Nat) (i : Nat) : Bool :=
  decide ((l.drop i).take pat.length = pat)

/-- Number of occurrences of `pat` in `l`. -/
def occCount (pat l : List Nat) : Nat :=
  ((List.range (l.length + 1)).filter (fun i => occursAt pat l i)).length

/-- The discovery errors of strategy A (src/unnamed/part_000 lines 22, 28,
51: `multiple interfaces in 203.0.113.0/24 network`, `cannot find DPT-S1
interface`, and the read-deadline error of the response loop). -/
inductive DiscErr
  | ambiguousInterface
  | noInterfaceFound
  | discoveryTimeout
deriving DecidableEq, Repr

/-- A received UDP datagram: sender address and payload bytes. -/
structure Packet where
  sender : String
  payload : List Nat
deriving DecidableEq, Repr

/-- The UDP side effects of discovery strategy A. -/
inductive UdpEvent
  | socketOpened (laddr : String)
  | probeSent (dest : String) (payload : Nat)
deriving DecidableEq, Repr

/-- Character-list prefix test (first argument: the candidate prefix). -/
def listPrefix : List Char → List Char → Bool
  | [], _ => true
  | _ :: _, [] => false
  | p :: ps, c :: cs => p == c && listPrefix ps cs

/-- Go's `strings.HasPrefix(s, pre)` (src/unnamed/part_000 line 20):
whether `pre` is a prefix of `s`. -/
def strHasPrefix (s pre : String) : Bool := listPrefix pre.toList s.toList

/-- The interface-enumeration loop of strategy A (src/unnamed/part_000
lines 18-29): walk the interface addresses; on a second address with the
string prefix `"203.0.113."` fail immediately with the ambiguity error;
after the walk fail if none matched, else return the match. -/
def scanIfaces : List String → Option String → Except DiscErr String
  | [], none => .error .noInterfaceFound
  | [], some a => .ok a
  | addr :: rest, acc =>
      if strHasPrefix addr "203.0.113." then
        match acc with
        | some _ => .error .ambiguousInterface
        | none => scanIfaces rest (some addr)
      else scanIfaces rest acc

/-- `return raddr.String()` once the loop guard `rcvdPkt[0] != 15` fails;
`raddr` is nil only before the first read, which is unreachable there
because `rcvdPkt[0]` starts at 0. -/
def raddrResult : Option String → Except DiscErr String
  | some a => .ok a
  | none => .ok ""

/-- The response loop of strategy A (src/unnamed/part_000 lines 47-54):
`for rcvdPkt[0] != 15` read one datagram into the 1-byte buffer (an empty
datagram leaves the buffer unchanged, hence `headD rcvd`), remembering the
sender; when the packet list is exhausted the read deadline fires and the
Go code returns the read error. -/
def readLoop : List Packet → Nat → Option String → Except DiscErr String
  | [], rcvd, raddr =>
      if rcvd = 15 then raddrResult raddr else .error .discoveryTimeout
  | pkt :: rest, rcvd, raddr =>
      if rcvd = 15 then raddrResult raddr
      else readLoop rest (pkt.payload.headD rcvd) (some pkt.sender)

/-- Discovery strategy A, `getDPTS1Addr` (src/unnamed/part_000 lines
12-57): find the unique local interface in `203.0.113.0/24` (failing
before any UDP I/O otherwise), open a UDP socket on it, send the single
probe byte 1 to `203.0.113.255:54321`, then run the response loop over the
datagrams `packets` arriving before the deadline.  Returns the result
together with the UDP side effects performed. -/
def getDPTS1Addr (ifaddrs : List String) (packets : List Packet) :
    Except DiscErr String × List UdpEvent :=
  match scanIfaces ifaddrs none with
  | .error e => (.error e, [])
  | .ok laddr =>
      (readLoop packets 0 none,
        [.socketOpened laddr, .probeSent "203.0.113.255:54321" 1])

/-- Terminal configuration of discovery strategy B, `getDPTS1AddrPolling`
(src/unnamed/part_000 lines 62-91; identical to `getDPTS1Addr` in
src/main.go lines 336-367).  256 goroutines each attempt a TCP dial;
`outcomes` records which dials returned a connection.  `connCh` is
unbuffered (`make(chan net.Conn)`) and the main goroutine executes at most
one receive on it (the single `select`) before returning, so at most one
successful goroutine's send can ever complete: `received` is that
goroutine (`none` when the 3-second timer won the select).  A goroutine
whose dial failed closes any non-nil connection and exits; the received
goroutine's connection is closed by main's `defer c.Close()`; every other
successful goroutine stays blocked in `connCh <- conn` forever, its
connection still open. -/
structure PollRun where
  outcomes : List Bool
  received : Option Nat
deriving DecidableEq, Repr

/-- The select can only have received from a goroutine whose dial
succeeded. -/
def PollRun.wellFormed (w : PollRun) : Bool :=
  match w.received with
  | none => true
  | some i => w.outcomes.getD i false

/-- Goroutine `i` is parked forever on `connCh <- conn`: its dial
succeeded but its send never paired with main's single receive. -/
def goroutineBlocked (w : PollRun) (i : Nat) : Bool :=
  w.outcomes.getD i false && !(w.received == some i)

/-- Whether the socket opened by goroutine `i` (if any) is ever closed:
failed dials close theirs (or never had one), the received connection is
closed by main's defer, and a blocked sender never reaches a close. -/
def socketClosed (w : PollRun) (i : Nat) : Bool :=
  if w.outcomes.getD i false then w.received == some i else true

/-- A test JPEG decoder for concrete instances: decodes exactly the
payload `jpg` to the image `img`. -/
def testDecode (jpg : List Nat) (img : Nat) : List Nat → Option Nat :=
  fun l => if l = jpg then some img else none

/-- The stream of the `C1` counterexample: an extra `'<'`, then the
delimiter (its only occurrence), then a two-byte payload. -/
def c1Stream : List Nat := strBytes "<" ++ (ENDTAG ++ [255, 216])

/-- The header of the `C3` test stream: delimiter bytes partially
matched (`"</comm"`), broken by `'>'`, then matched fully. -/
def c3Header : List Nat := strBytes "</comm></command>\n"

/-! ## Basic facts about the two cursors and the scan loop -/

theorem ENDTAG_eq : ENDTAG = [60, 47, 99, 111, 109, 109, 97, 110, 100, 62, 10] := by decide

theorem PORTRAIT_eq : PORTRAIT = [112, 111, 114, 116, 114, 97, 105, 116] := by decide

theorem ENDTAG_len : ENDTAG.length = 11 := by decide

theorem PORTRAIT_len : PORTRAIT.length = 8 := by decide

theorem demStep_le (d b : Nat) : demStep d b ≤ d + 1 := by
  unfold demStep; split <;> omega

theorem scanLoop_nil (d p : Nat) :
    scanLoop [] d p = if d < ENDTAG.length then none else some (p, []) := rfl

theorem scanLoop_cons (b : Nat) (l : List Nat) (d p : Nat) :
    scanLoop (b :: l) d p =
      if d < ENDTAG.length then scanLoop l (demStep d b) (porStep p b)
      else some (p, b :: l) := rfl

theorem scanLoop_full (l : List Nat) (d p : Nat) (h : ¬ d < ENDTAG.length) :
    scanLoop l d p = some (p, l) := by
  cases l <;> simp [scanLoop, h]

/-- A completed scan consumed a prefix of `n` bytes on which the
delimiter cursor reaches full length for the first time, and the final
marker cursor is the marker cursor's run over that prefix. -/
theorem scanLoop_some_spec (l : List Nat) (d p pr : Nat) (rest : List Nat)
    (hd : d ≤ ENDTAG.length) (h : scanLoop l d p = some (pr, rest)) :
    ∃ n, n ≤ l.length ∧ rest = l.drop n ∧ pr = porRun p (l.take n) ∧
      demRun d (l.take n) = ENDTAG.length ∧
      ∀ k < n, demRun d (l.take k) < ENDTAG.length := by
  induction l generalizing d p with
  | nil =>
      rw [scanLoop_nil] at h
      by_cases hlt : d < ENDTAG.length
      · simp [hlt] at h
      · simp [hlt] at h
        refine ⟨0, Nat.le_refl _, by simp [h.2], by simp [porRun, h.1], ?_,
          fun k hk => absurd hk (Nat.not_lt_zero k)⟩
        simp [demRun]; omega
  | cons b t ih =>
      rw [scanLoop_cons] at h
      by_cases hlt : d < ENDTAG.length
      · rw [if_pos hlt] at h
        have hd2 : demStep d b ≤ ENDTAG.length := by
          have := demStep_le d b; omega
        obtain ⟨n, hn, hrest, hpr, hdem, hmin⟩ := ih (demStep d b) (porStep p b) hd2 h
        refine ⟨n + 1, by simpa using hn, by simpa using hrest, ?_, ?_, ?_⟩
        · simpa [porRun] using hpr
        · simpa [demRun] using hdem
        · intro k hk
          match k with
          | 0 => simpa [demRun] using hlt
          | k + 1 =>
              have := hmin k (by omega)
              simpa [demRun] using this
      · rw [if_neg hlt] at h
        simp at h
        refine ⟨0, Nat.zero_le _, by simp [h.2], by simp [porRun, h.1], ?_,
          fun k hk => absurd hk (Nat.not_lt_zero k)⟩
        simp [demRun]; omega

/-- If the delimiter cursor never reaches full length over any prefix of
the stream, the scan loop runs off the end of the stream. -/
theorem scanLoop_none_of (l : List Nat) (d p : Nat) (hd : d ≤ ENDTAG.length)
    (h : ∀ k ≤ l.length, demRun d (l.take k) ≠ ENDTAG.length) :
    scanLoop l d p = none := by
  induction l generalizing d p with
  | nil =>
      have h0 : d ≠ ENDTAG.length := by simpa [demRun] using h 0 (by simp)
      rw [scanLoop_nil, if_pos (by omega)]
  | cons b t ih =>
      have h0 : d ≠ ENDTAG.length := by simpa [demRun] using h 0 (by simp)
      have hlt : d < ENDTAG.length := by omega
      rw [scanLoop_cons, if_pos hlt]
      refine ih (demStep d b) (porStep p b) (by have := demStep_le d b; omega) ?_
      intro k hk
      have := h (k + 1) (by simpa using hk)
      simpa [demRun] using this

theorem porStep_full (b : Nat) : porStep PORTRAIT.length b = PORTRAIT.length := by
  simp [porStep]

/-- Once the marker cursor is full it stays full (the Go code guards the
cursor update with `poridx < len(PORTRAIT)`). -/
theorem porRun_full (l : List Nat) : porRun PORTRAIT.length l = PORTRAIT.length := by
  induction l with
  | nil => rfl
  | cons b t ih => simpa [porRun, porStep_full] using ih

theorem porStep_le (p b : Nat) (hp : p ≤ PORTRAIT.length) :
    porStep p b ≤ PORTRAIT.length := by
  unfold porStep; split
  · split <;> omega
  · omega

theorem porRun_le (p : Nat) (l : List Nat) (hp : p ≤ PORTRAIT.length) :
    porRun p l ≤ PORTRAIT.length := by
  induction l generalizing p with
  | nil => exact hp
  | cons b t ih => simpa [porRun] using ih (porStep p b) (porStep_le p b hp)

theorem porRun_append (p : Nat) (l m : List Nat) :
    porRun p (l ++ m) = porRun (porRun p l) m := by
  simp [porRun, List.foldl_append]

theorem demRun_append (d : Nat) (l m : List Nat) :
    demRun d (l ++ m) = demRun (demRun d l) m := by
  simp [demRun, List.foldl_append]

/-- Soundness invariant of the naive marker cursor: a partial match is a
genuine suffix of the consumed bytes, and a full match witnesses a
genuine occurrence of `PORTRAIT` in the consumed bytes. -/
theorem porRun_invariant (l : List Nat) :
    (porRun 0 l = PORTRAIT.length → PORTRAIT <:+: l) ∧
    (porRun 0 l < PORTRAIT.length → PORTRAIT.take (porRun 0 l) <:+ l) := by
  induction l using List.reverseRecOn with
  | nil =>
      constructor
      · intro h; rw [PORTRAIT_len] at h; simp [porRun] at h
      · intro _; simp [porRun]
  | append_singleton l b ih =>
      have hrun : porRun 0 (l ++ [b]) = porStep (porRun 0 l) b := by
        simp [porRun_append, porRun]
      have hle : porRun 0 l ≤ PORTRAIT.length := porRun_le 0 l (by omega)
      by_cases h8 : porRun 0 l = PORTRAIT.length
      · have hstep : porRun 0 (l ++ [b]) = PORTRAIT.length := by
          rw [hrun, h8, porStep_full]
        obtain ⟨u, v, huv⟩ := ih.1 h8
        constructor
        · intro _; exact ⟨u, v ++ [b], by rw [← huv]; simp⟩
        · intro hc; rw [hstep] at hc; omega
      · have hq : porRun 0 l < PORTRAIT.length := by omega
        obtain ⟨u, hu⟩ := ih.2 hq
        by_cases hm : PORTRAIT[porRun 0 l]? = some b
        · have hstep : porRun 0 (l ++ [b]) = porRun 0 l + 1 := by
            rw [hrun]; unfold porStep; rw [if_pos hq, if_pos hm]
          have htake : PORTRAIT.take (porRun 0 l + 1) = PORTRAIT.take (porRun 0 l) ++ [b] := by
            rw [List.take_succ, hm]; rfl
          constructor
          · intro hfull
            refine ⟨u, [], ?_⟩
            have hpt : PORTRAIT.take (porRun 0 l + 1) = PORTRAIT := by
              rw [hstep] at hfull; rw [hfull]; exact List.take_length PORTRAIT
            rw [← hpt, htake]
            simpa using congrArg (· ++ [b]) hu
          · intro _
            rw [hstep, htake]
            exact ⟨u, by simpa using congrArg (· ++ [b]) hu⟩
        · have hstep : porRun 0 (l ++ [b]) = 0 := by
            rw [hrun]; unfold porStep; rw [if_pos hq, if_neg hm]
          constructor
          · intro hfull; rw [hstep] at hfull; rw [PORTRAIT_len] at hfull; omega
          · intro _; rw [hstep]; simp

/-- A full marker cursor witnesses an occurrence of `"portrait"` in the
consumed bytes. -/
theorem porRun_complete (l : List Nat) (h : porRun 0 l = PORTRAIT.length) :
    PORTRAIT <:+: l :=
  (porRun_invariant l).1 h

theorem porStep_zero (b : Nat) (h : b ≠ 112) : porStep 0 b = 0 := by
  have h0 : PORTRAIT[0]? = some 112 := by decide
  unfold porStep
  rw [if_pos (by decide), h0, if_neg (by intro hc; exact h (Option.some.inj hc).symm)]

/-- While no `'p'` byte has been seen, the marker cursor stays at zero. -/
theorem porRun_zero (l : List Nat) (h : ∀ b ∈ l, b ≠ 112) : porRun 0 l = 0 := by
  induction l with
  | nil => rfl
  | cons b t ih =>
      have : porStep 0 b = 0 := porStep_zero b (h b (by simp))
      simpa [porRun, this] using ih (fun x hx => h x (by simp [hx]))

theorem demStep_zero (b : Nat) (h : b ≠ 60) : demStep 0 b = 0 := by
  have h0 : ENDTAG[0]? = some 60 := by decide
  unfold demStep
  rw [h0, if_neg (by intro hc; exact h (Option.some.inj hc).symm)]

/-- While no `'<'` byte has been seen, the delimiter cursor stays at zero,
so the scan loop just walks over such a prefix, feeding it to the marker
cursor. -/
theorem scanLoop_skip (pre : List Nat) (hpre : ∀ b ∈ pre, b ≠ 60) (p : Nat)
    (rest : List Nat) :
    scanLoop (pre ++ rest) 0 p = scanLoop rest 0 (porRun p pre) := by
  induction pre generalizing p with
  | nil => simp [porRun]
  | cons b t ih =>
      rw [List.cons_append, scanLoop_cons, if_pos (by decide),
        demStep_zero b (hpre b (by simp)),
        ih (fun x hx => hpre x (by simp [hx])) (porStep p b)]
      simp [porRun]

/-- Fed the delimiter itself, the delimiter cursor runs straight to full
length, consuming exactly the delimiter. -/
theorem scanLoop_delim (p : Nat) (rest : List Nat) :
    scanLoop (ENDTAG ++ rest) 0 p = some (porRun p ENDTAG, rest) := by
  rw [ENDTAG_eq]
  simp only [List.cons_append, List.nil_append, scanLoop_cons, porRun, List.foldl_cons,
    List.foldl_nil]
  norm_num [demStep, ENDTAG_eq, ENDTAG_len]
  rw [scanLoop_full _ _ _ (by decide)]

/-- Once the marker cursor has been full on some consumed prefix it is
still full on any longer prefix. -/
theorem porRun_mono_full (l : List Nat) (k n : Nat) (hk : k ≤ n)
    (h : porRun 0 (l.take k) = PORTRAIT.length) :
    porRun 0 (l.take n) = PORTRAIT.length := by
  have hsplit : l.take n = l.take k ++ (l.take n).drop k := by
    conv_lhs => rw [← List.take_append_drop k (l.take n)]
    rw [List.take_take, Nat.min_eq_left hk]
  rw [hsplit, porRun_append, h, porRun_full]

/-- If the marker cursor is full after `n` bytes, there is a first prefix
on which it became full, and the byte completing it is `'t'` (116). -/
theorem porRun_first_hit (l : List Nat) (n : Nat) (hn : n ≤ l.length)
    (h : porRun 0 (l.take n) = PORTRAIT.length) :
    ∃ k, k ≤ n ∧ 1 ≤ k ∧ porRun 0 (l.take k) = PORTRAIT.length ∧
      l[k - 1]? = some 116 := by
  have hex : ∃ k, porRun 0 (l.take k) = PORTRAIT.length := ⟨n, h⟩
  refine ⟨Nat.find hex, Nat.find_min' hex h, ?_, Nat.find_spec hex, ?_⟩
  · by_contra hc
    have h0 : Nat.find hex = 0 := by omega
    have := Nat.find_spec hex
    rw [h0] at this
    simp [porRun, PORTRAIT_len] at this
  · have hk1 : 1 ≤ Nat.find hex := by
      by_contra hc
      have h0 : Nat.find hex = 0 := by omega
      have := Nat.find_spec hex
      rw [h0] at this
      simp [porRun, PORTRAIT_len] at this
    obtain ⟨m, hm⟩ : ∃ m, Nat.find hex = m + 1 := ⟨Nat.find hex - 1, by omega⟩
    have hmlt : m < l.length := by
      have := Nat.find_min' hex h
      omega
    have hb : l[m]? = some l[m] := List.getElem?_eq_getElem hmlt
    have hstep : porRun 0 (l.take (m + 1)) = porStep (porRun 0 (l.take m)) l[m] := by
      rw [List.take_succ, hb, porRun_append]
      rfl
    have hfull : porRun 0 (l.take (m + 1)) = PORTRAIT.length := by
      rw [← hm]; exact Nat.find_spec hex
    have hq : porRun 0 (l.take m) < PORTRAIT.length := by
      have hne : ¬ porRun 0 (l.take m) = PORTRAIT.length := Nat.find_min hex (by omega)
      have := porRun_le 0 (l.take m) (by omega)
      omega
    rw [hstep] at hfull
    unfold porStep at hfull
    rw [if_pos hq] at hfull
    by_cases hmatch : PORTRAIT[porRun 0 (l.take m)]? = some l[m]
    · rw [if_pos hmatch] at hfull
      have h7 : porRun 0 (l.take m) = 7 := by rw [PORTRAIT_len] at hfull; omega
      rw [h7] at hmatch
      have h116 : PORTRAIT[7]? = some 116 := by decide
      rw [h116] at hmatch
      rw [hm]
      simpa [hb] using (Option.some.inj hmatch).symm
    · rw [if_neg hmatch] at hfull
      rw [PORTRAIT_len] at hfull
      omega

/-- The byte on which the delimiter cursor first reaches full length is
the delimiter's last byte `'\n'` (10). -/
theorem demRun_last_byte (l : List Nat) (n : Nat) (hn : n ≤ l.length)
    (h : demRun 0 (l.take n) = ENDTAG.length)
    (hmin : ∀ k < n, demRun 0 (l.take k) < ENDTAG.length) :
    1 ≤ n ∧ l[n - 1]? = some 10 := by
  have hn1 : 1 ≤ n := by
    by_contra hc
    have h0 : n = 0 := by omega
    rw [h0] at h
    simp [demRun, ENDTAG_len] at h
  refine ⟨hn1, ?_⟩
  obtain ⟨m, hm⟩ : ∃ m, n = m + 1 := ⟨n - 1, by omega⟩
  have hmlt : m < l.length := by omega
  have hb : l[m]? = some l[m] := List.getElem?_eq_getElem hmlt
  have hstep : demRun 0 (l.take (m + 1)) = demStep (demRun 0 (l.take m)) l[m] := by
    rw [List.take_succ, hb, demRun_append]
    rfl
  have hfull : demRun 0 (l.take (m + 1)) = ENDTAG.length := by rw [← hm]; exact h
  have hq : demRun 0 (l.take m) < ENDTAG.length := hmin m (by omega)
  rw [hstep] at hfull
  unfold demStep at hfull
  by_cases hmatch : ENDTAG[demRun 0 (l.take m)]? = some l[m]
  · rw [if_pos hmatch] at hfull
    have h10 : demRun 0 (l.take m) = 10 := by rw [ENDTAG_len] at hfull; omega
    rw [h10] at hmatch
    have hlast : ENDTAG[10]? = some 10 := by decide
    rw [hlast] at hmatch
    rw [hm]
    simpa [hb] using (Option.some.inj hmatch).symm
  · rw [if_neg hmatch] at hfull
    rw [ENDTAG_len] at hfull
    omega

/-- When every `'p'` byte of the region starts a full occurrence of
`"portrait"`, the naive marker cursor finishes full on the region iff the
marker occurs in it: at the first `'p'` the cursor is still at zero, so it
matches the full occurrence starting there and then sticks. -/
theorem porRun_eq_full_iff (pre : List Nat)
    (hp : ∀ i, i < pre.length → pre.getD i 0 = 112 → occursAt PORTRAIT pre i = true) :
    (porRun 0 pre = PORTRAIT.length ↔ PORTRAIT <:+: pre) := by
  constructor
  · exact porRun_complete pre
  · rintro ⟨u, v, huv⟩
    have hexP : ∃ i, i < pre.length ∧ pre.getD i 0 = 112 := by
      refine ⟨u.length, ?_, ?_⟩
      · have := congrArg List.length huv
        simp [PORTRAIT_len] at this
        omega
      · have h1 : pre[u.length]? = some 112 := by
          rw [← huv,
            List.getElem?_append_left (by simp [PORTRAIT_len]),
            List.getElem?_append_right (Nat.le_refl _), Nat.sub_self]
          decide
        simp [h1]
    have hfind := Nat.find_spec hexP
    set i0 := Nat.find hexP with hi0
    have htake : (pre.drop i0).take PORTRAIT.length = PORTRAIT := by
      have := hp i0 hfind.1 hfind.2
      simpa [occursAt] using this
    have hz : porRun 0 (pre.take i0) = 0 := by
      apply porRun_zero
      intro b hb
      obtain ⟨j, hj, hjb⟩ := List.getElem_of_mem hb
      have hjlen : j < i0 ∧ j < pre.length := by
        simp [List.length_take] at hj
        omega
      have hmin := Nat.find_min hexP (by rw [← hi0]; exact hjlen.1)
      rw [not_and] at hmin
      have : pre.getD j 0 ≠ 112 := hmin hjlen.2
      rw [← hjb]
      simp [List.getD_eq_getElem?_getD, List.getElem?_eq_getElem hjlen.2] at this ⊢
      exact this
    have hdropsplit : pre.drop i0 = PORTRAIT ++ (pre.drop i0).drop PORTRAIT.length := by
      conv_lhs => rw [← List.take_append_drop PORTRAIT.length (pre.drop i0)]
      rw [htake]
    have : porRun 0 pre = porRun (porRun 0 (pre.take i0)) (pre.drop i0) := by
      conv_lhs => rw [← List.take_append_drop i0 pre]
      rw [porRun_append]
    rw [this, hz, hdropsplit, porRun_append]
    have hP : porRun 0 PORTRAIT = PORTRAIT.length := by decide
    rw [hP, porRun_full]

/-- The marker cursor cannot become full while consuming the delimiter:
the byte completing it would be `'t'` (116), which does not occur in
`"</command>\n"`.  So a full cursor after `pre ++ ENDTAG` was already full
after `pre`. -/
theorem porRun_pre_of_append_full (pre : List Nat)
    (h : porRun 0 (pre ++ ENDTAG) = PORTRAIT.length) :
    porRun 0 pre = PORTRAIT.length := by
  set l := pre ++ ENDTAG with hl
  have hfull : porRun 0 (l.take l.length) = PORTRAIT.length := by
    rw [List.take_length]; exact h
  obtain ⟨k, hkn, hk1, hkfull, hkb⟩ := porRun_first_hit l l.length (Nat.le_refl _) hfull
  by_cases hkpre : k ≤ pre.length
  · have htk : l.take k = pre.take k := by
      rw [hl, List.take_append_of_le_length hkpre]
    rw [htk] at hkfull
    have := porRun_mono_full pre k pre.length hkpre hkfull
    rwa [List.take_length] at this
  · exfalso
    have hge : pre.length ≤ k - 1 := by omega
    rw [hl, List.getElem?_append_right hge] at hkb
    have : (116 : Nat) ∈ ENDTAG := List.getElem?_mem hkb
    rw [ENDTAG_eq] at this
    simp at this

theorem publishOrientation_state (a b : Bool) : (publishOrientation a b).1 = b := by
  cases a <;> cases b <;> rfl

/-- `Refresh` on a successful scan and decode. -/
theorem Refresh_ok {Img : Type} (decode : List Nat → Option Img) (stream : List Nat)
    (st : DeviceState Img) (pr : Nat) (rest : List Nat) (img : Img)
    (hscan : scanLoop stream 0 0 = some (pr, rest)) (hdec : decode rest = some img) :
    Refresh decode (some stream) st =
      (.ok (), ⟨some img, (publishOrientation st.landscape (pr != PORTRAIT.length)).1⟩,
        (publishOrientation st.landscape (pr != PORTRAIT.length)).2) := by
  simp [Refresh, hscan, hdec]

/-! ## Claim C1 -/

/-- C1 (counterexample): the stream `"<</command>\n"` followed by the
decodable payload `[255, 216]` contains the delimiter exactly once and a
decodable payload follows it, yet `Refresh` returns the framing error
instead of locating the delimiter and decoding the payload: the scanner's
mismatch-resets-to-zero discipline drops the `'<'` that broke the first
partial match, so the claim's universally quantified statement is false. -/
theorem c1_counterexample :
    c1Stream = strBytes "<" ++ (ENDTAG ++ [255, 216]) ∧
    occCount ENDTAG c1Stream = 1 ∧
    testDecode [255, 216] 7 [255, 216] = some 7 ∧
    Refresh (testDecode [255, 216] 7) (some c1Stream) (initialDevice Nat) =
      (.error .framingError, initialDevice Nat, []) := by
  refine ⟨rfl, by decide, by decide, ?_⟩
  have hscan : scanLoop c1Stream 0 0 = none := by decide
  simp [Refresh, hscan]

/-- C1 (amended): for every byte stream of the form
`pre ++ "</command>\n" ++ jpg` in which the pre-delimiter region contains
no `'<'` byte (so the naive cursor is never mid-match when the real
delimiter starts) and in which every `'p'` byte of the pre-delimiter
region starts a full occurrence of `"portrait"` (so the naive marker
cursor cannot be trapped in a partial match either), a single `Refresh`
locates the delimiter, decodes exactly the JPEG payload that follows it,
and stores the portrait orientation iff `"portrait"` occurs in the
pre-delimiter region. -/
theorem c1_amended {Img : Type} (decode : List Nat → Option Img)
    (pre jpg : List Nat) (img : Img) (st : DeviceState Img)
    (hpre : ∀ b ∈ pre, b ≠ 60)
    (hp : ∀ i, i < pre.length → pre.getD i 0 = 112 → occursAt PORTRAIT pre i = true)
    (hdec : decode jpg = some img) :
    (Refresh decode (some (pre ++ (ENDTAG ++ jpg))) st).1 = .ok () ∧
    (Refresh decode (some (pre ++ (ENDTAG ++ jpg))) st).2.1.display = some img ∧
    ((Refresh decode (some (pre ++ (ENDTAG ++ jpg))) st).2.1.landscape = false ↔
      PORTRAIT <:+: pre) := by
  have hscan : scanLoop (pre ++ (ENDTAG ++ jpg)) 0 0 =
      some (porRun (porRun 0 pre) ENDTAG, jpg) := by
    rw [scanLoop_skip pre hpre, scanLoop_delim]
  have hR := Refresh_ok decode _ st _ _ img hscan hdec
  rw [hR]
  refine ⟨rfl, rfl, ?_⟩
  have hiff : porRun (porRun 0 pre) ENDTAG = PORTRAIT.length ↔ PORTRAIT <:+: pre := by
    rw [← porRun_append]
    constructor
    · intro h
      exact (porRun_eq_full_iff pre hp).1 (porRun_pre_of_append_full pre h)
    · intro h
      rw [porRun_append, (porRun_eq_full_iff pre hp).2 h, porRun_full]
  rw [publishOrientation_state, ← hiff]
  simp [bne]

/-- Witness for `c1_amended` at a concrete input: pre-region
`"portrait"`, payload `[9]`, image `5`. -/
theorem c1_amended_witness :
    (Refresh (testDecode [9] 5) (some (strBytes "portrait" ++ (ENDTAG ++ [9])))
        (initialDevice Nat)).1 = .ok () ∧
    (Refresh (testDecode [9] 5) (some (strBytes "portrait" ++ (ENDTAG ++ [9])))
        (initialDevice Nat)).2.1.display = some 5 ∧
    ((Refresh (testDecode [9] 5) (some (strBytes "portrait" ++ (ENDTAG ++ [9])))
        (initialDevice Nat)).2.1.landscape = false ↔
      PORTRAIT <:+: strBytes "portrait") :=
  c1_amended (testDecode [9] 5) (strBytes "portrait") [9] 5 (initialDevice Nat)
    (by decide) (by decide) (by decide)

/-! ## Claim C2 -/

/-- C2: on a call whose scan finds the delimiter (after consuming
`n = stream.length - rest.length` bytes) and whose decode succeeds, the
stored orientation is portrait iff the marker cursor reached full length
on some strictly shorter consumed prefix; and whenever `"portrait"` does
not occur in the consumed region (in particular when it occurs only
inside the JPEG payload after the delimiter), the stored orientation is
landscape. -/
theorem c2_orientation {Img : Type} (decode : List Nat → Option Img)
    (stream rest : List Nat) (pr : Nat) (img : Img) (st : DeviceState Img)
    (hscan : scanLoop stream 0 0 = some (pr, rest)) (hdec : decode rest = some img) :
    ((Refresh decode (some stream) st).2.1.landscape = false ↔
      ∃ k < stream.length - rest.length,
        porRun 0 (stream.take k) = PORTRAIT.length) ∧
    (¬ PORTRAIT <:+: stream.take (stream.length - rest.length) →
      (Refresh decode (some stream) st).2.1.landscape = true) := by
  obtain ⟨n, hn, hrest, hpr, hdem, hmin⟩ :=
    scanLoop_some_spec stream 0 0 pr rest (Nat.zero_le _) hscan
  have hlen : stream.length - rest.length = n := by
    rw [hrest, List.length_drop]; omega
  have hR := Refresh_ok decode stream st pr rest img hscan hdec
  rw [hR]
  have hland : (⟨some img, (publishOrientation st.landscape (pr != PORTRAIT.length)).1⟩ :
      DeviceState Img).landscape = (pr != PORTRAIT.length) := by
    rw [publishOrientation_state]
  have hfull_iff : pr = PORTRAIT.length ↔
      ∃ k < n, porRun 0 (stream.take k) = PORTRAIT.length := by
    constructor
    · intro h
      rw [hpr] at h
      obtain ⟨k, hkn, hk1, hkfull, hkb⟩ := porRun_first_hit stream n hn h
      refine ⟨k, ?_, hkfull⟩
      rcases Nat.lt_or_ge k n with hlt | hge
      · exact hlt
      · exfalso
        have hkeq : k = n := by omega
        obtain ⟨hn1, hnb⟩ := demRun_last_byte stream n hn hdem hmin
        rw [hkeq, hnb] at hkb
        exact absurd (Option.some.inj hkb) (by omega)
    · rintro ⟨k, hkn, hkfull⟩
      rw [hpr]
      exact porRun_mono_full stream k n (by omega) hkfull
  constructor
  · rw [hland, hlen, ← hfull_iff]
    simp [bne]
  · intro hninf
    rw [hland]
    have hne : pr ≠ PORTRAIT.length := by
      intro hfull
      apply hninf
      rw [hlen]
      exact porRun_complete (stream.take n) (hpr ▸ hfull)
    simp [bne, hne]

/-- Witness for `c2_orientation`: stream `"x</command>\n"` followed by
payload `[4]`; the marker never appears, orientation stays landscape
after the call on a state already in landscape mode. -/
theorem c2_orientation_witness :
    scanLoop (strBytes "x</command>\n" ++ [4]) 0 0 = some (0, [4]) ∧
    ((Refresh (testDecode [4] 3) (some (strBytes "x</command>\n" ++ [4]))
        ⟨none, true⟩).2.1.landscape = false ↔
      ∃ k < (strBytes "x</command>\n" ++ [4]).length - ([4] : List Nat).length,
        porRun 0 ((strBytes "x</command>\n" ++ [4]).take k) = PORTRAIT.length) :=
  ⟨by decide,
    (c2_orientation (testDecode [4] 3) (strBytes "x</command>\n" ++ [4]) [4] 0 3
      ⟨none, true⟩ (by decide) (by decide)).1⟩

/-! ## Claim C3 -/

/-- C3: on the specific stream `"</comm></command>\n"` followed by a
decodable JPEG payload — delimiter bytes partially matched, broken by
`'>'`, then fully matched — `Refresh` does not take the partial prefix
for the delimiter, still finds the true delimiter, succeeds, and decodes
exactly the payload that follows it. -/
theorem c3_partial_then_full {Img : Type} (decode : List Nat → Option Img)
    (jpg : List Nat) (img : Img) (st : DeviceState Img)
    (hdec : decode jpg = some img) :
    (Refresh decode (some (c3Header ++ jpg)) st).1 = .ok () ∧
    (Refresh decode (some (c3Header ++ jpg)) st).2.1.display = some img := by
  have hscan : scanLoop (c3Header ++ jpg) 0 0 = some (0, jpg) := by
    rw [show c3Header =
        [60, 47, 99, 111, 109, 109, 62, 60, 47, 99, 111, 109, 109, 97, 110, 100, 62, 10]
      from by decide]
    simp only [List.cons_append, scanLoop_cons]
    norm_num [demStep, porStep, ENDTAG_eq, PORTRAIT_eq]
    rw [scanLoop_full _ _ _ (by decide)]
  have hR := Refresh_ok decode _ st _ _ img hscan hdec
  rw [hR]
  exact ⟨rfl, rfl⟩

/-- Witness for `c3_partial_then_full`: payload `[1, 2]`, image `6`. -/
theorem c3_partial_then_full_witness :
    (Refresh (testDecode [1, 2] 6) (some (c3Header ++ [1, 2]))
        (initialDevice Nat)).1 = .ok () ∧
    (Refresh (testDecode [1, 2] 6) (some (c3Header ++ [1, 2]))
        (initialDevice Nat)).2.1.display = some 6 :=
  c3_partial_then_full (testDecode [1, 2] 6) [1, 2] 6 (initialDevice Nat) (by decide)

/-! ## Claim C4 -/

/-- C4: when the stream ends before the delimiter cursor ever reaches
full length, `Refresh` fails with the framing error, leaves the state
untouched, and — since the result is this error for *every* decoder
`decode` — never invokes the JPEG decoder. -/
theorem c4_framing {Img : Type} (decode : List Nat → Option Img) (stream : List Nat)
    (st : DeviceState Img)
    (h : ∀ k ≤ stream.length, demRun 0 (stream.take k) ≠ ENDTAG.length) :
    Refresh decode (some stream) st = (.error .framingError, st, []) := by
  have hscan := scanLoop_none_of stream 0 0 (Nat.zero_le _) h
  simp [Refresh, hscan]

/-- Witness for `c4_framing`: the stream `"</comman"` ends mid-match. -/
theorem c4_framing_witness :
    (∀ k ≤ (strBytes "</comman").length,
      demRun 0 ((strBytes "</comman").take k) ≠ ENDTAG.length) ∧
    Refresh (testDecode [] 0) (some (strBytes "</comman")) (initialDevice Nat) =
      (.error .framingError, initialDevice Nat, []) :=
  ⟨by decide, c4_framing (testDecode [] 0) (strBytes "</comman") (initialDevice Nat)
    (by decide)⟩

/-! ## Claim C5 -/

/-- C5: whenever a `Refresh` call returns an error — connect, framing or
decode — the device state it returns is exactly the state it was given
(published frame and landscape flag unchanged) and it performs no window
resize. -/
theorem c5_error_preserves_state {Img : Type} (decode : List Nat → Option Img)
    (conn : Option (List Nat)) (st : DeviceState Img) (e : RefreshError)
    (h : (Refresh decode conn st).1 = .error e) :
    (Refresh decode conn st).2.1 = st ∧ (Refresh decode conn st).2.2 = [] := by
  match conn with
  | none => exact ⟨rfl, rfl⟩
  | some stream =>
    cases hscan : scanLoop stream 0 0 with
    | none => simp [Refresh, hscan]
    | some pr =>
      obtain ⟨p, rest⟩ := pr
      cases hdec : decode rest with
      | none => simp [Refresh, hscan, hdec]
      | some img => simp [Refresh, hscan, hdec] at h

/-- Witness for `c5_error_preserves_state`: a dial failure. -/
theorem c5_error_preserves_state_witness :
    (Refresh (testDecode [] 0) none ⟨some 3, true⟩).1 = .error .connectError ∧
    (Refresh (testDecode [] 0) none ⟨some 3, true⟩).2.1 = ⟨some 3, true⟩ ∧
    (Refresh (testDecode [] 0) none ⟨some 3, true⟩).2.2 = [] :=
  ⟨rfl,
    (c5_error_preserves_state (testDecode [] 0) none ⟨some 3, true⟩ .connectError rfl).1,
    (c5_error_preserves_state (testDecode [] 0) none ⟨some 3, true⟩ .connectError rfl).2⟩

/-! ## Claim C6 -/

/-- C6: across any sequence of successful acquisition cycles, the window
resize (a `SetWindowSize` call, recorded by `driverResizes`) happens at
cycle `i` exactly when the newly fetched orientation differs from the
stored one (the previous cycle's orientation, or the initial flag for the
first cycle) — and in particular, starting from the default portrait
state, the fetched landscape-flag sequence
`[false, false, true, true, false]` resizes exactly at indices 2 and 4. -/
theorem c6_edge_triggered :
    (∀ (b : Bool) (os : List Bool) (i : Nat), i < os.length →
      ((driverResizes b os).getD i false = true ↔
        os.getD i false ≠ (if i = 0 then b else os.getD (i - 1) false))) ∧
    driverResizes false [false, false, true, true, false] =
      [false, false, true, false, true] := by
  refine ⟨?_, by decide⟩
  intro b os
  induction os generalizing b with
  | nil => intro i hi; simp at hi
  | cons o t ih =>
      intro i hi
      match i with
      | 0 =>
          simp [driverResizes]
          cases b <;> cases o <;> decide
      | Nat.succ j =>
          have hj : j < t.length := by simpa using hi
          have hstate : (publishOrientation b o).1 = o := publishOrientation_state b o
          simp only [driverResizes, hstate, List.getD_cons_succ]
          have hji := ih o j hj
          match j with
          | 0 => simpa using hji
          | Nat.succ m => simpa using hji

/-- Witness for `c6_edge_triggered`: a single landscape cycle from the
default portrait state resizes. -/
theorem c6_edge_triggered_witness :
    (driverResizes false [true]).getD 0 false = true ↔
      ([true] : List Bool).getD 0 false ≠
        (if (0 : Nat) = 0 then false else ([true] : List Bool).getD (0 - 1) false) :=
  c6_edge_triggered.1 false [true] 0 (by decide)

/-! ## Claim C7 -/

/-- C7 (refuting execution): two candidate hosts accept the TCP connect
(`outcomes = [true, true]`) and the main goroutine's single receive pairs
with goroutine 0.  Goroutine 1's dial succeeded after the winner was
chosen, so it is parked forever on the unbuffered `connCh <- conn` — no
receiver will ever run again — and the socket it opened is never closed:
the code leaks both the goroutine and the descriptor, contradicting the
claim (the channel is unbuffered and no cancellation check guards the
send, the two mechanisms the specification itself names as required). -/
theorem c7_loser_socket_leak :
    PollRun.wellFormed ⟨[true, true], some 0⟩ = true ∧
    goroutineBlocked ⟨[true, true], some 0⟩ 1 = true ∧
    socketClosed ⟨[true, true], some 0⟩ 1 = false := by decide

/-! ## Claims C8 and C9 -/

/-- Exhaustive behaviour of the interface-enumeration loop, by the number
of addresses matching the reserved-subnet prefix. -/
theorem scanIfaces_spec (l : List String) :
    (2 ≤ (l.filter (fun a => strHasPrefix a "203.0.113.")).length →
        scanIfaces l none = .error .ambiguousInterface) ∧
    (1 ≤ (l.filter (fun a => strHasPrefix a "203.0.113.")).length → ∀ a,
      scanIfaces l (some a) = .error .ambiguousInterface) ∧
    ((l.filter (fun a => strHasPrefix a "203.0.113.")).length = 0 →
      scanIfaces l none = .error .noInterfaceFound) ∧
    ((l.filter (fun a => strHasPrefix a "203.0.113.")).length = 0 → ∀ a,
      scanIfaces l (some a) = .ok a) ∧
    ((l.filter (fun a => strHasPrefix a "203.0.113.")).length = 1 →
      ∃ a, scanIfaces l none = .ok a) := by
  induction l with
  | nil => refine ⟨by simp, by simp, fun _ => rfl, fun _ a => rfl, by simp⟩
  | cons x t ih =>
      by_cases hx : strHasPrefix x "203.0.113." = true
      · have hfil : (x :: t).filter (fun a => strHasPrefix a "203.0.113.") =
            x :: t.filter (fun a => strHasPrefix a "203.0.113.") := by
          simp [List.filter_cons, hx]
        have hnone : scanIfaces (x :: t) none = scanIfaces t (some x) := by
          simp [scanIfaces, hx]
        have hsome : ∀ a, scanIfaces (x :: t) (some a) = .error .ambiguousInterface := by
          intro a; simp [scanIfaces, hx]
        refine ⟨?_, fun _ a => hsome a, ?_, ?_, ?_⟩
        · intro h2
          rw [hnone]
          exact (ih.2.1 (by rw [hfil] at h2; simpa using Nat.le_of_succ_le_succ h2) x)
        · intro h0; rw [hfil] at h0; simp at h0
        · intro h0; rw [hfil] at h0; simp at h0
        · intro h1
          rw [hnone]
          have h0 : (t.filter (fun a => strHasPrefix a "203.0.113.")).length = 0 := by
            rw [hfil] at h1; simpa using h1
          exact ⟨x, ih.2.2.2.1 h0 x⟩
      · have hx2 : strHasPrefix x "203.0.113." = false := by
          cases hb : strHasPrefix x "203.0.113." with
          | false => rfl
          | true => exact absurd hb hx
        have hfil : (x :: t).filter (fun a => strHasPrefix a "203.0.113.") =
            t.filter (fun a => strHasPrefix a "203.0.113.") := by
          simp [List.filter_cons, hx2]
        have hstep : ∀ acc2 : Option String, scanIfaces (x :: t) acc2 = scanIfaces t acc2 := by
          intro acc2; simp [scanIfaces, hx2]
        simp only [hfil, hstep]
        exact ih

/-- C8: whenever more than one interface address carries the reserved
`203.0.113.` prefix, strategy A fails with the ambiguity error during the
enumeration loop — no UDP socket is opened and no probe is sent — and
whenever none does, it fails the same way with the no-interface error. -/
theorem c8_ambiguous_before_udp (ifaddrs : List String) (packets : List Packet) :
    (2 ≤ (ifaddrs.filter (fun a => strHasPrefix a "203.0.113.")).length →
      getDPTS1Addr ifaddrs packets = (.error .ambiguousInterface, [])) ∧
    ((ifaddrs.filter (fun a => strHasPrefix a "203.0.113.")).length = 0 →
      getDPTS1Addr ifaddrs packets = (.error .noInterfaceFound, [])) := by
  constructor
  · intro h2
    have := (scanIfaces_spec ifaddrs).1 h2
    simp [getDPTS1Addr, this]
  · intro h0
    have := (scanIfaces_spec ifaddrs).2.2.1 h0
    simp [getDPTS1Addr, this]

/-- Witness for `c8_ambiguous_before_udp`: two matching interfaces. -/
theorem c8_ambiguous_before_udp_witness :
    getDPTS1Addr ["203.0.113.2/24", "203.0.113.9/24"]
        [⟨"203.0.113.5:54321", [15]⟩] = (.error .ambiguousInterface, []) :=
  (c8_ambiguous_before_udp ["203.0.113.2/24", "203.0.113.9/24"]
    [⟨"203.0.113.5:54321", [15]⟩]).1 (by decide)

/-- Once the buffer holds the ack byte 15, the loop returns the sender
remembered from the last read. -/
theorem readLoop_exit (ps : List Packet) (raddr : Option String) :
    readLoop ps 15 raddr = raddrResult raddr := by
  cases ps <;> simp [readLoop]

/-- The response loop returns the sender of the first datagram whose
first payload byte is the ack 15, ignoring every other datagram, and
fails with the timeout error when no such datagram arrives. -/
theorem readLoop_spec (ps : List Packet) (rcvd : Nat) (raddr : Option String)
    (h : rcvd ≠ 15) :
    readLoop ps rcvd raddr =
      match ps.find? (fun pk => pk.payload.headD 0 == 15) with
      | some pk => .ok pk.sender
      | none => .error .discoveryTimeout := by
  induction ps generalizing rcvd raddr with
  | nil => simp [readLoop, h]
  | cons pk t ih =>
      rw [readLoop, if_neg h]
      cases hpay : pk.payload with
      | nil =>
          have hfind : ¬ ((fun pk : Packet => pk.payload.headD 0 == 15) pk = true) := by
            simp [hpay]
          rw [@List.find?_cons_of_neg Packet (fun pk => pk.payload.headD 0 == 15) pk t hfind,
            List.headD_nil]
          exact ih rcvd (some pk.sender) h
      | cons x xs =>
          by_cases hx : x = 15
          · have hfind : (fun pk : Packet => pk.payload.headD 0 == 15) pk = true := by
              simp [hpay, hx]
            rw [@List.find?_cons_of_pos Packet (fun pk => pk.payload.headD 0 == 15) pk t hfind,
              List.headD_cons, hx, readLoop_exit]
            rfl
          · have hfind : ¬ ((fun pk : Packet => pk.payload.headD 0 == 15) pk = true) := by
              simp [hpay, hx]
            rw [@List.find?_cons_of_neg Packet (fun pk => pk.payload.headD 0 == 15) pk t hfind,
              List.headD_cons]
            exact ih x (some pk.sender) hx

/-- C9: with exactly one matching interface, strategy A opens one socket
and sends exactly one probe — the single byte 1 to `203.0.113.255:54321`
— and then returns the sender address of the first datagram whose payload
byte is 15, silently discarding every other datagram (they never surface
as errors); if no ack datagram arrives before the deadline, it fails with
the timeout error. -/
theorem c9_probe_and_ack (ifaddrs : List String) (packets : List Packet)
    (h : (ifaddrs.filter (fun a => strHasPrefix a "203.0.113.")).length = 1) :
    (∃ laddr, (getDPTS1Addr ifaddrs packets).2 =
      [.socketOpened laddr, .probeSent "203.0.113.255:54321" 1]) ∧
    ((getDPTS1Addr ifaddrs packets).1 =
      match packets.find? (fun pk => pk.payload.headD 0 == 15) with
      | some pk => .ok pk.sender
      | none => .error .discoveryTimeout) := by
  obtain ⟨a, ha⟩ := (scanIfaces_spec ifaddrs).2.2.2.2 h
  constructor
  · exact ⟨a, by simp [getDPTS1Addr, ha]⟩
  · rw [show (getDPTS1Addr ifaddrs packets).1 = readLoop packets 0 none from by
      simp [getDPTS1Addr, ha]]
    exact readLoop_spec packets 0 none (by omega)

/-- Witness for `c9_probe_and_ack`: one matching interface; a garbage
datagram (payload byte 3) is discarded and the ack from
`"203.0.113.7:54321"` wins. -/
theorem c9_probe_and_ack_witness :
    (∃ laddr,
      (getDPTS1Addr ["10.0.0.1/8", "203.0.113.2/24"]
          [⟨"203.0.113.9:54321", [3]⟩, ⟨"203.0.113.7:54321", [15]⟩]).2 =
        [.socketOpened laddr, .probeSent "203.0.113.255:54321" 1]) ∧
    ((getDPTS1Addr ["10.0.0.1/8", "203.0.113.2/24"]
        [⟨"203.0.113.9:54321", [3]⟩, ⟨"203.0.113.7:54321", [15]⟩]).1 =
      match ([⟨"203.0.113.9:54321", [3]⟩, ⟨"203.0.113.7:54321", [15]⟩] :
          List Packet).find? (fun pk => pk.payload.headD 0 == 15) with
      | some pk => .ok pk.sender
      | none => .error .discoveryTimeout) :=
  c9_probe_and_ack ["10.0.0.1/8", "203.0.113.2/24"]
    [⟨"203.0.113.9:54321", [3]⟩, ⟨"203.0.113.7:54321", [15]⟩] (by decide)

/-! ## Claim C10 -/

/-- C10: before any acquisition cycle succeeds, the published-frame slot
of the freshly constructed device holds no image, and `Draw` on any state
with an empty slot draws nothing and returns normally. -/
theorem c10_draw_empty_safe (Img : Type) :
    (initialDevice Img).display = none ∧
    ∀ st : DeviceState Img, st.display = none → Draw st = [] := by
  refine ⟨rfl, fun st h => ?_⟩
  simp [Draw, h]

/-- Witness for `c10_draw_empty_safe`. -/
theorem c10_draw_empty_safe_witness :
    (initialDevice Nat).display = none ∧
    Draw (⟨none, true⟩ : DeviceState Nat) = [] :=
  ⟨(c10_draw_empty_safe Nat).1, (c10_draw_empty_safe Nat).2 ⟨none, true⟩ rfl⟩


end DPTS1
